import Mathlib

/-!
Verification development for the Epic Notes verification-token workflow.

The data model follows the `Verification` table accessed through the ORM in
the route handlers (`profile.two-factor.tsx`, `profile.two-factor.verify.tsx`,
`profile.change-email.tsx`, `profile.connections.tsx`, `profile.index` action
helpers).  The store is embedded as a list of records; the ORM operations
`findUnique` (on the `target_type` unique key), `upsert`, `deleteMany` and
`update` are embedded as list transformers.  Code-validation helpers that live
in `verify.server.ts` / `totp.server.ts` are modelled from the specification
(they are marked as such below); everything else is translated from the route
sources.
-/

namespace EpicNotes

/-- Field data of a verification row as written by the routes (everything but
the generated `id`): mirrors the columns selected/written in the sources. -/
structure VerificationData where
  type : String
  target : String
  secret : String
  algorithm : String
  digits : Nat
  period : Nat
  charSet : String
  expiresAt : Option Nat
  deriving DecidableEq, Repr

/-- A stored verification row: an opaque id plus the field data. -/
structure Verification where
  id : Nat
  type : String
  target : String
  secret : String
  algorithm : String
  digits : Nat
  period : Nat
  charSet : String
  expiresAt : Option Nat
  deriving DecidableEq, Repr

/-- Attach a generated id to field data (row creation). -/
def mkVerification (id : Nat) (d : VerificationData) : Verification :=
  { id := id, type := d.type, target := d.target, secret := d.secret,
    algorithm := d.algorithm, digits := d.digits, period := d.period,
    charSet := d.charSet, expiresAt := d.expiresAt }

/-- The `target_type` unique-key test used in every `where` clause. -/
def vMatch (ty target : String) (v : Verification) : Bool :=
  v.type == ty && v.target == target

/-- Embeds `prisma.verification.findUnique({ where: { target_type: { type, target } } })`. -/
def findUniqueVerification (s : List Verification) (ty target : String) :
    Option Verification :=
  s.find? (vMatch ty target)

/-- Embeds `prisma.verification.upsert({ where: target_type, create: d, update: d })`:
the existing row (if any) keeps its id and has its fields overwritten;
otherwise a fresh row is created. -/
def verificationUpsert (freshId : Nat) (d : VerificationData) :
    List Verification → List Verification
  | [] => [mkVerification freshId d]
  | v :: rest =>
    if vMatch d.type d.target v then mkVerification v.id d :: rest
    else v :: verificationUpsert freshId d rest

/-- Embeds `prisma.verification.deleteMany({ where: { type, target } })`: removes every
matching row, succeeds even when none match. -/
def verificationDeleteMany (ty target : String) (s : List Verification) :
    List Verification :=
  s.filter (fun v => !vMatch ty target v)

/-- Embeds `prisma.verification.update({ where: target_type, data: { type: newType } })`:
rewrites the `type` field of the unique matching row; `none` models the ORM
error thrown when no row matches. -/
def verificationUpdateType (ty target newType : String) :
    List Verification → Option (List Verification)
  | [] => none
  | v :: rest =>
    if vMatch ty target v then some ({ v with type := newType } :: rest)
    else (verificationUpdateType ty target newType rest).map (v :: ·)

/-- Number of rows for the `(type, target)` pair (the pair is a unique key in
the database, so a well-formed store has at most one). -/
def matchCount (s : List Verification) (ty target : String) : Nat :=
  s.countP (vMatch ty target)

/-- From `profile.two-factor.tsx`: `twoFAVerificationType = "2fa"`. -/
def twoFAVerificationType : String := "2fa"

/-- From `profile.two-factor.verify.tsx`: `twoFAVerifyVerificationType = "2fa-verify"`. -/
def twoFAVerifyVerificationType : String := "2fa-verify"

/-- Modelled from the spec: the return shape of `generateTOTP()` from
`totp.server.ts` (not under `src/`), per the generator contract
`generate -> {secret, algorithm, period, digits, charSet, otp}`; codes are
represented as the numbers obtained by the `mod 10^digits` reduction. -/
structure TOTPConfig where
  otp : Nat
  secret : String
  algorithm : String
  digits : Nat
  period : Nat
  charSet : String
  deriving DecidableEq, Repr

/-- The `verificationData` object built by the enable action of the two-factor
index route: the spread of `config` (i.e. `generateTOTP()` minus the
destructured-away `otp`) plus `type` and `target`; no `expiresAt` is written. -/
def enableTwoFactorVerificationData (userId : String) (g : TOTPConfig) :
    VerificationData :=
  { type := twoFAVerifyVerificationType, target := userId,
    secret := g.secret, algorithm := g.algorithm, digits := g.digits,
    period := g.period, charSet := g.charSet, expiresAt := none }

/-- The enable action of the two-factor index route: upserts the pending
`"2fa-verify"` record for the user. -/
def enableTwoFactorAction (userId : String) (g : TOTPConfig) (freshId : Nat)
    (s : List Verification) : List Verification :=
  verificationUpsert freshId (enableTwoFactorVerificationData userId g) s

/-- The two-factor index loader: `is2FAEnabled = Boolean(verification)` for the
unique `("2fa", userId)` record. -/
def is2FAEnabled (s : List Verification) (userId : String) : Bool :=
  (findUniqueVerification s twoFAVerificationType userId).isSome

/-- Modelled from the spec: TOTP counter, Unix time divided by the period. -/
def totpCounter (period now : Nat) : Nat := now / period

/-- Modelled from the spec: the code for a given counter — an abstract
HMAC/truncation value reduced modulo `10 ^ digits`; the HMAC primitive from
`totp.server.ts` (not under `src/`) is kept as a parameter. -/
def totpCodeAt (hmac : String → Nat → Nat) (secret : String)
    (digits counter : Nat) : Nat :=
  hmac secret counter % 10 ^ digits

/-- Modelled from the spec: the code for the current time window. -/
def totpCode (hmac : String → Nat → Nat) (secret : String)
    (period digits now : Nat) : Nat :=
  totpCodeAt hmac secret digits (totpCounter period now)

/-- Modelled from the spec: the validator — a record past its `expiresAt` is
invalid regardless of code match, otherwise the submitted code must equal the
code recomputed for the exact current time window (the source call sites
tolerate only the current window; no adjacent-window skew tolerance). -/
def isValidCode (hmac : String → Nat → Nat) (code : Nat) (v : Verification)
    (now : Nat) : Bool :=
  (match v.expiresAt with
   | some t => decide (now < t)
   | none => true)
  && code == totpCode hmac v.secret v.period v.digits now

/-- Modelled from the spec: `isCodeValid` from `verify.server.ts` (not under
`src/`) — look up the unique record for `(type, target)`; absent means
invalid, otherwise validate the code against the record. -/
def isCodeValid (hmac : String → Nat → Nat) (s : List Verification)
    (code : Nat) (ty target : String) (now : Nat) : Bool :=
  match findUniqueVerification s ty target with
  | none => false
  | some v => isValidCode hmac code v now

/-- The two intents of the verify route action (`ActionSchema`). -/
inductive TwoFAVerifyIntent where
  | cancel
  | verify (code : Nat)

/-- Observable outcome of the verify route action: the 400 invalid-code reply,
the cancel redirect, the success redirect with toast, or the ORM error from an
`update` on a missing row. -/
inductive TwoFAVerifyResult where
  | invalidCodeResponse
  | cancelRedirect
  | successRedirect
  | updateFailed
  deriving DecidableEq, Repr

/-- The action of `profile.two-factor.verify.tsx`: `cancel` skips validation
and `deleteMany`s the pending record; `verify` first checks `isCodeValid` (a
failure returns the 400 reply without touching the store) and on success
`update`s the record's `type` to `"2fa"`. -/
def twoFactorVerifyAction (hmac : String → Nat → Nat) (userId : String)
    (intent : TwoFAVerifyIntent) (now : Nat) (s : List Verification) :
    TwoFAVerifyResult × List Verification :=
  match intent with
  | .cancel =>
    (.cancelRedirect, verificationDeleteMany twoFAVerifyVerificationType userId s)
  | .verify code =>
    if isCodeValid hmac s code twoFAVerifyVerificationType userId now then
      match verificationUpdateType twoFAVerifyVerificationType userId
          twoFAVerificationType s with
      | some s' => (.successRedirect, s')
      | none => (.updateFailed, s)
    else (.invalidCodeResponse, s)

/-- Modelled from the spec: the error taxonomy of the orchestrator's `submit`
(`NotFound` / `InvalidCode`), plus success. -/
inductive SubmitOutcome where
  | success
  | notFound
  | invalidCode
  deriving DecidableEq, Repr

/-- Modelled from the spec: how a flow consumes its record on success — delete
it (one-shot flows) or transition its `type` to a permanent marker. -/
inductive ConsumeMode where
  | deleteRecord
  | transitionType (newType : String)

/-- Modelled from the spec: consumption of the record per flow definition. -/
def consumeVerification (mode : ConsumeMode) (ty target : String)
    (s : List Verification) : List Verification :=
  match mode with
  | .deleteRecord => verificationDeleteMany ty target s
  | .transitionType nt => (verificationUpdateType ty target nt s).getD s

/-- Modelled from the spec: the orchestrator's `submit(type, target, code)` —
absent record fails with `NotFound`; invalid code fails with `InvalidCode` and
leaves the store untouched; a valid code consumes the record. -/
def submitVerification (hmac : String → Nat → Nat) (mode : ConsumeMode)
    (ty target : String) (code now : Nat) (s : List Verification) :
    SubmitOutcome × List Verification :=
  match findUniqueVerification s ty target with
  | none => (.notFound, s)
  | some v =>
    if isValidCode hmac code v now then
      (.success, consumeVerification mode ty target s)
    else (.invalidCode, s)

/-- Modelled from the spec: `prepareVerification` from `verify.server.ts` (not
under `src/`) — generate a code for the current window, upsert the record for
`(type, target)` with an absolute expiry `now + period`, and hand the code
back for delivery. -/
def prepareVerification (hmac : String → Nat → Nat) (freshId : Nat)
    (secret ty target : String) (period digits now : Nat)
    (s : List Verification) : Nat × List Verification :=
  let d : VerificationData :=
    { type := ty, target := target, secret := secret, algorithm := "SHA-1",
      digits := digits, period := period, charSet := "0123456789",
      expiresAt := some (now + period) }
  (totpCode hmac secret period digits now, verificationUpsert freshId d s)

/-- From the `profile.change-email.tsx` action: `prepareVerification({ period: 10 * 60,
target: userId, type: "change-email" })`. -/
def changeEmailPeriod : Nat := 10 * 60

/-- The change-email request as issued by the change-email action. -/
def changeEmailRequest (hmac : String → Nat → Nat) (freshId : Nat)
    (secret userId : String) (digits now : Nat) (s : List Verification) :
    Nat × List Verification :=
  prepareVerification hmac freshId secret "change-email" userId
    changeEmailPeriod digits now s

/-- A session row as touched by `signOutOfSessionsAction`. -/
structure Session where
  id : String
  userId : String
  deriving DecidableEq, Repr

/-- Embeds `prisma.session.deleteMany({ where: { userId, id: { not: sessionId } } })`. -/
def sessionDeleteManyOther (userId sid : String) (sessions : List Session) :
    List Session :=
  sessions.filter (fun s => !(s.userId == userId && s.id != sid))

/-- The `signOutOfSessionsAction` helper: reads the session id from the auth cookie;
`invariantResponse` fails (`none`) when it is absent, otherwise every session
of the user other than the current one is deleted. -/
def signOutOfSessionsAction (userId : String) (cookieSessionId : Option String)
    (sessions : List Session) : Option (List Session) :=
  match cookieSessionId with
  | none => none
  | some sid => some (sessionDeleteManyOther userId sid sessions)

/-- A connection row as touched by the connections route. -/
structure Connection where
  id : String
  userId : String
  deriving DecidableEq, Repr

/-- The `_count.connections` value of the user. -/
def connectionCount (conns : List Connection) (userId : String) : Nat :=
  (conns.filter (fun c => c.userId == userId)).length

/-- The `userCanDeleteConnections` helper for an existing user: `if (user?.password)
return true; return Boolean(count && count > 1)`. -/
def userCanDeleteConnections (hasPassword : Bool) (conns : List Connection)
    (userId : String) : Bool :=
  if hasPassword then true else decide (connectionCount conns userId > 1)

/-- Observable outcome of the connections route action: the two
`invariantResponse` failures, the missing-`connectionId` failure, the ORM
error from `delete` on a missing row, or success. -/
inductive DeleteConnectionOutcome where
  | invalidIntent
  | forbidden
  | invalidConnectionId
  | recordNotFound
  | success
  deriving DecidableEq, Repr

/-- The action of `profile.connections.tsx`: requires the
`"delete-connection"` intent, requires `userCanDeleteConnections`, requires a
string `connectionId`, then `prisma.connection.delete({ where: { id:
connectionId, userId } })`. -/
def deleteConnectionAction (userId : String) (hasPassword : Bool)
    (intent : String) (connectionId : Option String)
    (conns : List Connection) : DeleteConnectionOutcome × List Connection :=
  if intent != "delete-connection" then (.invalidIntent, conns)
  else if !userCanDeleteConnections hasPassword conns userId then
    (.forbidden, conns)
  else
    match connectionId with
    | none => (.invalidConnectionId, conns)
    | some cid =>
      if conns.any (fun c => c.id == cid && c.userId == userId) then
        (.success, conns.filter (fun c => !(c.id == cid && c.userId == userId)))
      else (.recordNotFound, conns)

/-! ### Helper lemmas about the store operations -/

theorem vMatch_iff {ty target : String} {v : Verification} :
    vMatch ty target v = true ↔ v.type = ty ∧ v.target = target := by
  simp [vMatch]

theorem vMatch_mk (ty target : String) (i : Nat) (d : VerificationData)
    (hty : d.type = ty) (htg : d.target = target) :
    vMatch ty target (mkVerification i d) = true := by
  simp [vMatch, mkVerification, hty, htg]

/-- A successful unique lookup splits the store at the first matching row. -/
theorem findUnique_split {s : List Verification} {ty target : String}
    {v : Verification}
    (h : findUniqueVerification s ty target = some v) :
    ∃ pre post, s = pre ++ v :: post ∧ vMatch ty target v = true ∧
      ∀ w ∈ pre, vMatch ty target w = false := by
  induction s with
  | nil => simp [findUniqueVerification] at h
  | cons w rest ih =>
    by_cases hw : vMatch ty target w
    · rw [findUniqueVerification, List.find?_cons_of_pos _ hw] at h
      obtain rfl : w = v := Option.some.inj h
      exact ⟨[], rest, rfl, hw, by simp⟩
    · rw [findUniqueVerification, List.find?_cons_of_neg _ hw] at h
      obtain ⟨pre, post, hs, hv, hpre⟩ := ih h
      refine ⟨w :: pre, post, by simp [hs], hv, ?_⟩
      intro x hx
      rcases List.mem_cons.mp hx with rfl | hx
      · exact Bool.eq_false_iff.mpr hw
      · exact hpre x hx

/-- The `update` that rewrites the `type` field acts exactly on the first
matching row and leaves every other row in place. -/
theorem updateType_split {s : List Verification} {ty target : String}
    {v : Verification} (nt : String)
    (h : findUniqueVerification s ty target = some v) :
    ∃ pre post, s = pre ++ v :: post ∧
      (∀ w ∈ pre, vMatch ty target w = false) ∧
      verificationUpdateType ty target nt s
        = some (pre ++ { v with type := nt } :: post) := by
  induction s with
  | nil => simp [findUniqueVerification] at h
  | cons w rest ih =>
    by_cases hw : vMatch ty target w
    · rw [findUniqueVerification, List.find?_cons_of_pos _ hw] at h
      obtain rfl : w = v := Option.some.inj h
      exact ⟨[], rest, rfl, by simp, by simp [verificationUpdateType, hw]⟩
    · rw [findUniqueVerification, List.find?_cons_of_neg _ hw] at h
      obtain ⟨pre, post, hs, hpre, hupd⟩ := ih h
      refine ⟨w :: pre, post, by simp [hs], ?_, ?_⟩
      · intro x hx
        rcases List.mem_cons.mp hx with rfl | hx
        · exact Bool.eq_false_iff.mpr hw
        · exact hpre x hx
      · simp [verificationUpdateType, hw, hupd]

/-- After an upsert the unique lookup for the upserted key returns exactly the
written field data (under the row's preserved or fresh id). -/
theorem findUnique_upsert (f : Nat) (d : VerificationData)
    (s : List Verification) :
    ∃ i, findUniqueVerification (verificationUpsert f d s) d.type d.target
      = some (mkVerification i d) := by
  induction s with
  | nil =>
    exact ⟨f, by
      rw [verificationUpsert, findUniqueVerification,
        List.find?_cons_of_pos _ (vMatch_mk _ _ f d rfl rfl)]⟩
  | cons v rest ih =>
    by_cases hv : vMatch d.type d.target v
    · exact ⟨v.id, by
        rw [verificationUpsert, if_pos hv, findUniqueVerification,
          List.find?_cons_of_pos _ (vMatch_mk _ _ v.id d rfl rfl)]⟩
    · obtain ⟨i, hi⟩ := ih
      exact ⟨i, by
        rw [verificationUpsert, if_neg hv, findUniqueVerification,
          List.find?_cons_of_neg _ hv]
        exact hi⟩

/-- An upsert over a store respecting the `(type, target)` uniqueness
constraint leaves exactly one row for the pair. -/
theorem matchCount_upsert (f : Nat) (d : VerificationData)
    (s : List Verification)
    (h : matchCount s d.type d.target ≤ 1) :
    matchCount (verificationUpsert f d s) d.type d.target = 1 := by
  induction s with
  | nil =>
    simp [verificationUpsert, matchCount, List.countP_cons,
      vMatch_mk _ _ f d rfl rfl]
  | cons v rest ih =>
    by_cases hv : vMatch d.type d.target v
    · have hrest : matchCount rest d.type d.target = 0 := by
        rw [matchCount] at h
        rw [List.countP_cons, if_pos hv] at h
        rw [matchCount]
        omega
      rw [verificationUpsert, if_pos hv, matchCount, List.countP_cons,
        if_pos (vMatch_mk _ _ v.id d rfl rfl)]
      rw [matchCount] at hrest
      omega
    · have hrest : matchCount rest d.type d.target ≤ 1 := by
        rw [matchCount] at h ⊢
        rw [List.countP_cons, if_neg hv] at h
        omega
      rw [verificationUpsert, if_neg hv, matchCount, List.countP_cons,
        if_neg hv]
      rw [matchCount] at ih
      simpa using ih hrest

/-- A `deleteMany` removes every row for the pair: the pending record is gone. -/
theorem findUnique_deleteMany (ty target : String) (s : List Verification) :
    findUniqueVerification (verificationDeleteMany ty target s) ty target
      = none := by
  rw [findUniqueVerification, List.find?_eq_none]
  intro v hv
  have hmem := (List.mem_filter.mp hv).2
  simp only [Bool.not_eq_eq_eq_not, Bool.not_true] at hmem
  simp [hmem]

/-- A store with no row for the pair is untouched by `deleteMany`. -/
theorem deleteMany_of_absent {ty target : String} {s : List Verification}
    (h : findUniqueVerification s ty target = none) :
    verificationDeleteMany ty target s = s := by
  rw [findUniqueVerification, List.find?_eq_none] at h
  rw [verificationDeleteMany, List.filter_eq_self]
  intro v hv
  simpa using h v hv

/-- The `deleteMany` operation is idempotent. -/
theorem deleteMany_idem (ty target : String) (s : List Verification) :
    verificationDeleteMany ty target (verificationDeleteMany ty target s)
      = verificationDeleteMany ty target s :=
  deleteMany_of_absent (findUnique_deleteMany ty target s)

/-- Under the uniqueness constraint, transitioning the found row's `type` to a
different flow tag leaves no row for the original pair. -/
theorem findUnique_updateType_ne {s s' : List Verification}
    {ty target nt : String} {v : Verification}
    (hne : nt ≠ ty)
    (hcount : matchCount s ty target ≤ 1)
    (hfind : findUniqueVerification s ty target = some v)
    (hupd : verificationUpdateType ty target nt s = some s') :
    findUniqueVerification s' ty target = none := by
  obtain ⟨pre, post, hs, hpre, hupd'⟩ := updateType_split nt hfind
  rw [hupd'] at hupd
  obtain rfl := Option.some.inj hupd
  have hv : vMatch ty target v = true := by
    obtain ⟨_, _, _, hv, _⟩ := findUnique_split hfind
    exact hv
  have hpost : ∀ w ∈ post, vMatch ty target w = false := by
    have hpre0 : pre.countP (vMatch ty target) = 0 :=
      List.countP_eq_zero.mpr (by intro a ha; simp [hpre a ha])
    have : matchCount (pre ++ v :: post) ty target ≤ 1 := hs ▸ hcount
    rw [matchCount, List.countP_append, hpre0, List.countP_cons, if_pos hv]
      at this
    have hpost0 : post.countP (vMatch ty target) = 0 := by omega
    intro w hw
    have := List.countP_eq_zero.mp hpost0 w hw
    simpa using this
  rw [findUniqueVerification, List.find?_eq_none]
  intro w hw
  rcases List.mem_append.mp hw with hw | hw
  · simp [hpre w hw]
  · rcases List.mem_cons.mp hw with rfl | hw
    · simp [vMatch, hne]
    · simp [hpost w hw]

/-- The lemma `findUnique_upsert` restated with the key named explicitly. -/
theorem findUnique_upsert' (f : Nat) (d : VerificationData)
    (s : List Verification) (ty target : String)
    (hty : d.type = ty) (htg : d.target = target) :
    ∃ i, findUniqueVerification (verificationUpsert f d s) ty target
      = some (mkVerification i d) := by
  subst hty htg
  exact findUnique_upsert f d s

/-! ### Concrete sample data used by the witness theorems -/

/-- A sample HMAC primitive for concrete evaluation. -/
def sampleHmac : String → Nat → Nat := fun _ counter => counter

/-- A sample pending 2FA-enrollment record. -/
def sampleRecord : Verification :=
  { id := 0, type := twoFAVerifyVerificationType, target := "user-42",
    secret := "s3cr3t", algorithm := "SHA-1", digits := 6, period := 30,
    charSet := "0123456789", expiresAt := none }

/-- A sample generator output. -/
def sampleConfig : TOTPConfig :=
  { otp := 7, secret := "s3cr3t", algorithm := "SHA-1", digits := 6,
    period := 30, charSet := "0123456789" }

/-- A second sample generator output with a different secret. -/
def sampleConfig2 : TOTPConfig := { sampleConfig with secret := "0th3rs3cr3t" }

/-! ### Claim theorems -/

/-- C1: for every user with a pending 2FA enrollment record (type
`"2fa-verify"`, target = userId), a successful verify submission does not
delete the record but mutates it in place, changing only its `type` field to
`"2fa"`; afterwards the loader that checks for a record of type `"2fa"` for
that user reports two-factor authentication as enabled. -/
theorem twoFA_verify_success_mutates_in_place
    (hmac : String → Nat → Nat) (userId : String) (code now : Nat)
    (s : List Verification) (v : Verification)
    (hfind : findUniqueVerification s twoFAVerifyVerificationType userId
      = some v)
    (hvalid : isValidCode hmac code v now = true) :
    ∃ pre post, s = pre ++ v :: post ∧
      twoFactorVerifyAction hmac userId (.verify code) now s
        = (.successRedirect,
            pre ++ { v with type := twoFAVerificationType } :: post) ∧
      is2FAEnabled (pre ++ { v with type := twoFAVerificationType } :: post)
        userId = true := by
  obtain ⟨pre, post, hs, hpre, hupd⟩ :=
    updateType_split twoFAVerificationType hfind
  have hv : vMatch twoFAVerifyVerificationType userId v = true := by
    obtain ⟨_, _, _, hv, _⟩ := findUnique_split hfind
    exact hv
  have hic : isCodeValid hmac s code twoFAVerifyVerificationType userId now
      = true := by
    unfold isCodeValid
    rw [hfind]
    exact hvalid
  refine ⟨pre, post, hs, ?_, ?_⟩
  · simp only [twoFactorVerifyAction, hic, if_true, hupd]
  · have hmem : ∃ x ∈ pre ++ { v with type := twoFAVerificationType } :: post,
        vMatch twoFAVerificationType userId x = true := by
      refine ⟨{ v with type := twoFAVerificationType }, by simp, ?_⟩
      simp [vMatch, (vMatch_iff.mp hv).2]
    exact List.find?_isSome.mpr hmem

/-- Witness for C1 at a concrete store. -/
theorem twoFA_verify_success_mutates_in_place_witness :
    ∃ pre post, [sampleRecord] = pre ++ sampleRecord :: post ∧
      twoFactorVerifyAction sampleHmac "user-42" (.verify 0) 0 [sampleRecord]
        = (.successRedirect,
            pre ++ { sampleRecord with type := twoFAVerificationType } :: post) ∧
      is2FAEnabled
        (pre ++ { sampleRecord with type := twoFAVerificationType } :: post)
        "user-42" = true :=
  twoFA_verify_success_mutates_in_place sampleHmac "user-42" 0 0 [sampleRecord]
    sampleRecord (by decide) (by decide)

/-- C2: initiating 2FA enrollment any number of times in succession leaves
exactly one verification record for the pair (`"2fa-verify"`, userId): the
second request upserts over the first, so at most one pending verification
per flow per subject exists and the earlier secret/config is replaced. -/
theorem enable_twice_leaves_single_pending (userId : String)
    (g₁ g₂ : TOTPConfig) (f₁ f₂ : Nat) (s : List Verification)
    (hinv : matchCount s twoFAVerifyVerificationType userId ≤ 1) :
    matchCount
        (enableTwoFactorAction userId g₂ f₂
          (enableTwoFactorAction userId g₁ f₁ s))
        twoFAVerifyVerificationType userId = 1 ∧
    ∃ i, findUniqueVerification
        (enableTwoFactorAction userId g₂ f₂
          (enableTwoFactorAction userId g₁ f₁ s))
        twoFAVerifyVerificationType userId
      = some (mkVerification i (enableTwoFactorVerificationData userId g₂)) := by
  have h1 : matchCount (enableTwoFactorAction userId g₁ f₁ s)
      twoFAVerifyVerificationType userId = 1 :=
    matchCount_upsert f₁ (enableTwoFactorVerificationData userId g₁) s hinv
  constructor
  · exact matchCount_upsert f₂ (enableTwoFactorVerificationData userId g₂) _
      (le_of_eq h1)
  · exact findUnique_upsert f₂ (enableTwoFactorVerificationData userId g₂) _

/-- Witness for C2 at a concrete store. -/
theorem enable_twice_leaves_single_pending_witness :
    matchCount
        (enableTwoFactorAction "user-42" sampleConfig2 1
          (enableTwoFactorAction "user-42" sampleConfig 0 []))
        twoFAVerifyVerificationType "user-42" = 1 ∧
    ∃ i, findUniqueVerification
        (enableTwoFactorAction "user-42" sampleConfig2 1
          (enableTwoFactorAction "user-42" sampleConfig 0 []))
        twoFAVerifyVerificationType "user-42"
      = some (mkVerification i
          (enableTwoFactorVerificationData "user-42" sampleConfig2)) :=
  enable_twice_leaves_single_pending "user-42" sampleConfig sampleConfig2 0 1 []
    (by decide)

/-- The flow's consumption mode is compatible with its pending tag: a
transition must move to a different `type` (as `"2fa-verify" → "2fa"` does),
otherwise the record would still count as pending. -/
def consumeModeOk (mode : ConsumeMode) (ty : String) : Prop :=
  match mode with
  | .deleteRecord => True
  | .transitionType nt => nt ≠ ty

/-- C3: for every (type, target) with no stored verification record, a submit
of any code fails with `NotFound`; in particular, after a successful submit
has consumed the record (by deletion or by the type transition), a second
submit of the same — or any — code fails with `NotFound`. -/
theorem submit_absent_or_consumed_notFound
    (hmac : String → Nat → Nat) (mode : ConsumeMode) (ty target : String)
    (code now : Nat) (s₀ s s' : List Verification)
    (habs : findUniqueVerification s₀ ty target = none)
    (hinv : matchCount s ty target ≤ 1)
    (hmode : consumeModeOk mode ty)
    (hsucc : submitVerification hmac mode ty target code now s
      = (.success, s')) :
    (∀ c n, submitVerification hmac mode ty target c n s₀ = (.notFound, s₀)) ∧
    ∀ c n, submitVerification hmac mode ty target c n s' = (.notFound, s') := by
  have habsent : ∀ (t : List Verification),
      findUniqueVerification t ty target = none →
      ∀ c n, submitVerification hmac mode ty target c n t = (.notFound, t) := by
    intro t ht c n
    unfold submitVerification
    rw [ht]
  refine ⟨habsent s₀ habs, ?_⟩
  cases hf : findUniqueVerification s ty target with
  | none =>
    rw [submitVerification, hf] at hsucc
    simp at hsucc
  | some v =>
    rw [submitVerification, hf] at hsucc
    by_cases hval : isValidCode hmac code v now
    · simp only [hval, if_true, Prod.mk.injEq, true_and] at hsucc
      obtain rfl := hsucc.symm
      have hnone : findUniqueVerification (consumeVerification mode ty target s)
          ty target = none := by
        cases mode with
        | deleteRecord => exact findUnique_deleteMany ty target s
        | transitionType nt =>
          obtain ⟨pre, post, hs, hpre, hupd⟩ := updateType_split nt hf
          have hC : consumeVerification (.transitionType nt) ty target s
              = pre ++ { v with type := nt } :: post := by
            simp [consumeVerification, hupd]
          rw [hC]
          exact findUnique_updateType_ne hmode hinv hf hupd
      exact habsent _ hnone
    · simp [hval] at hsucc

/-- Witness for C3: an empty store answers `NotFound`, and after the
enrollment record has been consumed by a successful submit (transitioning
`"2fa-verify" → "2fa"`), resubmitting the same code answers `NotFound`. -/
theorem submit_absent_or_consumed_notFound_witness :
    (∀ c n, submitVerification sampleHmac
        (.transitionType twoFAVerificationType) twoFAVerifyVerificationType
        "user-42" c n [] = (.notFound, [])) ∧
    ∀ c n, submitVerification sampleHmac
        (.transitionType twoFAVerificationType) twoFAVerifyVerificationType
        "user-42" c n [{ sampleRecord with type := twoFAVerificationType }]
      = (.notFound, [{ sampleRecord with type := twoFAVerificationType }]) :=
  submit_absent_or_consumed_notFound sampleHmac
    (.transitionType twoFAVerificationType) twoFAVerifyVerificationType
    "user-42" 0 0 [] [sampleRecord]
    [{ sampleRecord with type := twoFAVerificationType }]
    (by decide) (by decide)
    (show twoFAVerificationType ≠ twoFAVerifyVerificationType by decide)
    (by decide)

/-- C4: for every pending verification record, a submit with a wrong code
fails with `InvalidCode` and performs no store mutation — the route action
returns its 400 reply with the store verbatim unchanged, the record remains
pending and unaltered, and any legitimate code remains valid. -/
theorem submit_wrong_code_no_mutation
    (hmac : String → Nat → Nat) (userId : String) (code now : Nat)
    (mode : ConsumeMode) (s : List Verification) (v : Verification)
    (hfind : findUniqueVerification s twoFAVerifyVerificationType userId
      = some v)
    (hwrong : isValidCode hmac code v now = false) :
    twoFactorVerifyAction hmac userId (.verify code) now s
      = (.invalidCodeResponse, s) ∧
    submitVerification hmac mode twoFAVerifyVerificationType userId code now s
      = (.invalidCode, s) ∧
    ∀ c₂, isValidCode hmac c₂ v now = true →
      (submitVerification hmac mode twoFAVerifyVerificationType userId c₂
        now s).1 = .success := by
  have hic : isCodeValid hmac s code twoFAVerifyVerificationType userId now
      = false := by
    unfold isCodeValid
    rw [hfind]
    exact hwrong
  refine ⟨?_, ?_, ?_⟩
  · simp [twoFactorVerifyAction, hic]
  · rw [submitVerification, hfind]
    simp [hwrong]
  · intro c₂ hc₂
    rw [submitVerification, hfind]
    simp [hc₂]

/-- Witness for C4 at a concrete store: code 1 is wrong, code 0 is the
legitimate one. -/
theorem submit_wrong_code_no_mutation_witness :
    twoFactorVerifyAction sampleHmac "user-42" (.verify 1) 0 [sampleRecord]
      = (.invalidCodeResponse, [sampleRecord]) ∧
    submitVerification sampleHmac .deleteRecord twoFAVerifyVerificationType
      "user-42" 1 0 [sampleRecord] = (.invalidCode, [sampleRecord]) ∧
    ∀ c₂, isValidCode sampleHmac c₂ sampleRecord 0 = true →
      (submitVerification sampleHmac .deleteRecord twoFAVerifyVerificationType
        "user-42" c₂ 0 [sampleRecord]).1 = .success :=
  submit_wrong_code_no_mutation sampleHmac "user-42" 1 0 .deleteRecord
    [sampleRecord] sampleRecord (by decide) (by decide)

/-- C5: cancel deletes the verification record unconditionally (the route's
cancel intent always succeeds with its redirect) and is idempotent: cancelling
with no record present is a no-op that still succeeds, cancel after cancel
equals a single cancel, and after a cancel no record remains. -/
theorem cancel_unconditional_idempotent
    (hmac : String → Nat → Nat) (ty target userId : String) (now : Nat)
    (s s₀ : List Verification)
    (habs : findUniqueVerification s₀ ty target = none) :
    verificationDeleteMany ty target s₀ = s₀ ∧
    verificationDeleteMany ty target (verificationDeleteMany ty target s)
      = verificationDeleteMany ty target s ∧
    findUniqueVerification (verificationDeleteMany ty target s) ty target
      = none ∧
    twoFactorVerifyAction hmac userId .cancel now s
      = (.cancelRedirect,
          verificationDeleteMany twoFAVerifyVerificationType userId s) :=
  ⟨deleteMany_of_absent habs, deleteMany_idem ty target s,
   findUnique_deleteMany ty target s, rfl⟩

/-- Witness for C5 at a concrete store. -/
theorem cancel_unconditional_idempotent_witness :
    verificationDeleteMany twoFAVerifyVerificationType "user-42" [] = [] ∧
    verificationDeleteMany twoFAVerifyVerificationType "user-42"
        (verificationDeleteMany twoFAVerifyVerificationType "user-42"
          [sampleRecord])
      = verificationDeleteMany twoFAVerifyVerificationType "user-42"
          [sampleRecord] ∧
    findUniqueVerification
        (verificationDeleteMany twoFAVerifyVerificationType "user-42"
          [sampleRecord]) twoFAVerifyVerificationType "user-42" = none ∧
    twoFactorVerifyAction sampleHmac "user-42" .cancel 0 [sampleRecord]
      = (.cancelRedirect,
          verificationDeleteMany twoFAVerifyVerificationType "user-42"
            [sampleRecord]) :=
  cancel_unconditional_idempotent sampleHmac twoFAVerifyVerificationType
    "user-42" "user-42" 0 [sampleRecord] [] (by decide)

/-- C6: a change-email verification is created with a 10-minute validity
period (`expiresAt = now + 10 * 60`); submitting the correct code after the
expiry instant (at `t₀ + 11min`) is invalid regardless of code match, while
submitting it before expiry (at `t₀ + 5min`, within the same window) succeeds. -/
theorem change_email_ten_minute_expiry
    (hmac : String → Nat → Nat) (freshId : Nat) (secret userId : String)
    (digits t₀ : Nat) (s : List Verification)
    (hwin : (t₀ + 5 * 60) / changeEmailPeriod = t₀ / changeEmailPeriod) :
    changeEmailPeriod = 10 * 60 ∧
    (∃ i, findUniqueVerification
        (changeEmailRequest hmac freshId secret userId digits t₀ s).2
        "change-email" userId
      = some (mkVerification i
          { type := "change-email", target := userId, secret := secret,
            algorithm := "SHA-1", digits := digits,
            period := changeEmailPeriod, charSet := "0123456789",
            expiresAt := some (t₀ + changeEmailPeriod) })) ∧
    (∀ c, isCodeValid hmac
        (changeEmailRequest hmac freshId secret userId digits t₀ s).2 c
        "change-email" userId (t₀ + 11 * 60) = false) ∧
    isCodeValid hmac
        (changeEmailRequest hmac freshId secret userId digits t₀ s).2
        (changeEmailRequest hmac freshId secret userId digits t₀ s).1
        "change-email" userId (t₀ + 5 * 60) = true := by
  obtain ⟨i, hi⟩ := findUnique_upsert' freshId
    { type := "change-email", target := userId, secret := secret,
      algorithm := "SHA-1", digits := digits, period := changeEmailPeriod,
      charSet := "0123456789", expiresAt := some (t₀ + changeEmailPeriod) }
    s "change-email" userId rfl rfl
  have hi' : findUniqueVerification
      (changeEmailRequest hmac freshId secret userId digits t₀ s).2
      "change-email" userId
    = some (mkVerification i
        { type := "change-email", target := userId, secret := secret,
          algorithm := "SHA-1", digits := digits, period := changeEmailPeriod,
          charSet := "0123456789",
          expiresAt := some (t₀ + changeEmailPeriod) }) := hi
  refine ⟨rfl, ⟨i, hi'⟩, ?_, ?_⟩
  · intro c
    have hexp : ¬ (t₀ + 11 * 60 < t₀ + changeEmailPeriod) := by
      unfold changeEmailPeriod
      omega
    unfold isCodeValid
    rw [hi']
    simp [isValidCode, mkVerification, hexp]
  · have hlt : t₀ + 5 * 60 < t₀ + changeEmailPeriod := by
      unfold changeEmailPeriod
      omega
    unfold isCodeValid
    rw [hi']
    have hfst : (changeEmailRequest hmac freshId secret userId digits t₀ s).1
        = totpCode hmac secret changeEmailPeriod digits t₀ := rfl
    rw [hfst]
    simp [isValidCode, mkVerification, hlt, totpCode, totpCounter, hwin]

/-- Witness for C6 at a concrete request time `t₀ = 0`. -/
theorem change_email_ten_minute_expiry_witness :
    changeEmailPeriod = 10 * 60 ∧
    (∃ i, findUniqueVerification
        (changeEmailRequest sampleHmac 0 "s3cr3t" "user-7" 6 0 []).2
        "change-email" "user-7"
      = some (mkVerification i
          { type := "change-email", target := "user-7", secret := "s3cr3t",
            algorithm := "SHA-1", digits := 6, period := changeEmailPeriod,
            charSet := "0123456789",
            expiresAt := some (0 + changeEmailPeriod) })) ∧
    (∀ c, isCodeValid sampleHmac
        (changeEmailRequest sampleHmac 0 "s3cr3t" "user-7" 6 0 []).2 c
        "change-email" "user-7" (0 + 11 * 60) = false) ∧
    isCodeValid sampleHmac
        (changeEmailRequest sampleHmac 0 "s3cr3t" "user-7" 6 0 []).2
        (changeEmailRequest sampleHmac 0 "s3cr3t" "user-7" 6 0 []).1
        "change-email" "user-7" (0 + 5 * 60) = true :=
  change_email_ten_minute_expiry sampleHmac 0 "s3cr3t" "user-7" 6 0 []
    (by decide)

/-- C7: TOTP validation accepts the code computed for the current time window;
the source call sites tolerate only the exact current window (no
adjacent-window skew), so every code derived from a window two or more periods
away — which differs from the current window's code — is rejected. -/
theorem totp_current_window_only
    (hmac : String → Nat → Nat) (v : Verification) (now w : Nat)
    (hexp : v.expiresAt = none)
    (hfar : w + 2 ≤ totpCounter v.period now
      ∨ totpCounter v.period now + 2 ≤ w)
    (hdiff : totpCodeAt hmac v.secret v.digits w
      ≠ totpCodeAt hmac v.secret v.digits (totpCounter v.period now)) :
    isValidCode hmac (totpCode hmac v.secret v.period v.digits now) v now
      = true ∧
    isValidCode hmac (totpCodeAt hmac v.secret v.digits w) v now = false := by
  constructor
  · simp [isValidCode, hexp, totpCode]
  · simp [isValidCode, hexp, totpCode, hdiff]

/-- Witness for C7: with a concrete HMAC, the current-window code (window 0)
is accepted and a code from two windows ahead is rejected. -/
theorem totp_current_window_only_witness :
    isValidCode sampleHmac
        (totpCode sampleHmac sampleRecord.secret sampleRecord.period
          sampleRecord.digits 0) sampleRecord 0 = true ∧
    isValidCode sampleHmac
        (totpCodeAt sampleHmac sampleRecord.secret sampleRecord.digits 2)
        sampleRecord 0 = false :=
  totp_current_window_only sampleHmac sampleRecord 0 2 (by decide) (by decide)
    (by decide)

/-- C8: the enable action discards the generated one-time code — the stored
record is independent of the `otp` field of the generator output and contains
exactly the TOTP configuration together with type `"2fa-verify"` and the user
id as target. -/
theorem enable_discards_otp (userId : String) (g : TOTPConfig)
    (x freshId : Nat) (s : List Verification) :
    enableTwoFactorAction userId { g with otp := x } freshId s
      = enableTwoFactorAction userId g freshId s ∧
    ∃ i, findUniqueVerification (enableTwoFactorAction userId g freshId s)
        twoFAVerifyVerificationType userId
      = some (mkVerification i
          { type := twoFAVerifyVerificationType, target := userId,
            secret := g.secret, algorithm := g.algorithm, digits := g.digits,
            period := g.period, charSet := g.charSet, expiresAt := none }) := by
  constructor
  · rfl
  · exact findUnique_upsert' freshId
      (enableTwoFactorVerificationData userId g) s _ _ rfl rfl

/-- Witness for C8 at a concrete generator output and store. -/
theorem enable_discards_otp_witness :
    enableTwoFactorAction "user-42" { sampleConfig with otp := 999999 } 0 []
      = enableTwoFactorAction "user-42" sampleConfig 0 [] ∧
    ∃ i, findUniqueVerification
        (enableTwoFactorAction "user-42" sampleConfig 0 [])
        twoFAVerifyVerificationType "user-42"
      = some (mkVerification i
          { type := twoFAVerifyVerificationType, target := "user-42",
            secret := sampleConfig.secret, algorithm := sampleConfig.algorithm,
            digits := sampleConfig.digits, period := sampleConfig.period,
            charSet := sampleConfig.charSet, expiresAt := none }) :=
  enable_discards_otp "user-42" sampleConfig 999999 0 []

/-- C9: the sign-out-of-other-sessions action deletes exactly the sessions of
the authenticated user whose id differs from the session id in the auth
cookie — the current session and every other user's sessions remain — and the
action fails when the cookie holds no session id. -/
theorem sign_out_other_sessions_exact (userId sid : String)
    (sessions : List Session) :
    signOutOfSessionsAction userId none sessions = none ∧
    signOutOfSessionsAction userId (some sid) sessions
      = some (sessionDeleteManyOther userId sid sessions) ∧
    ∀ sess, sess ∈ sessionDeleteManyOther userId sid sessions
      ↔ sess ∈ sessions ∧ ¬(sess.userId = userId ∧ sess.id ≠ sid) := by
  refine ⟨rfl, rfl, ?_⟩
  intro sess
  simp only [sessionDeleteManyOther, List.mem_filter, Bool.not_eq_eq_eq_not,
    Bool.not_true, Bool.and_eq_false_imp, bne_eq_false_iff_eq, beq_iff_eq,
    ne_eq, not_and, Decidable.not_not]

/-- Witness for C9 at a concrete session table: the current session `s1` and
another user's session `s3` survive; the user's other session `s2` is
deleted. -/
theorem sign_out_other_sessions_exact_witness :
    signOutOfSessionsAction "alice" none
        [⟨"s1", "alice"⟩, ⟨"s2", "alice"⟩, ⟨"s3", "bob"⟩] = none ∧
    signOutOfSessionsAction "alice" (some "s1")
        [⟨"s1", "alice"⟩, ⟨"s2", "alice"⟩, ⟨"s3", "bob"⟩]
      = some (sessionDeleteManyOther "alice" "s1"
          [⟨"s1", "alice"⟩, ⟨"s2", "alice"⟩, ⟨"s3", "bob"⟩]) ∧
    ∀ sess, sess ∈ sessionDeleteManyOther "alice" "s1"
        [⟨"s1", "alice"⟩, ⟨"s2", "alice"⟩, ⟨"s3", "bob"⟩]
      ↔ sess ∈ [⟨"s1", "alice"⟩, ⟨"s2", "alice"⟩, (⟨"s3", "bob"⟩ : Session)]
        ∧ ¬(sess.userId = "alice" ∧ sess.id ≠ "s1") :=
  sign_out_other_sessions_exact "alice" "s1"
    [⟨"s1", "alice"⟩, ⟨"s2", "alice"⟩, ⟨"s3", "bob"⟩]

/-- C10: the delete-connection action deletes a connection only when the
authenticated user has a password or more than one connection; a user with no
password and at most one connection is rejected with an error and no
connection is deleted. -/
theorem delete_connection_guard (userId cid : String)
    (conns : List Connection)
    (hle : connectionCount conns userId ≤ 1) :
    deleteConnectionAction userId false "delete-connection" (some cid) conns
      = (.forbidden, conns) ∧
    ∀ (hp : Bool) (intent : String) (cidOpt : Option String)
      (conns₂ : List Connection),
      (deleteConnectionAction userId hp intent cidOpt conns₂).1 = .success →
      hp = true ∨ connectionCount conns₂ userId > 1 := by
  constructor
  · have hcan : userCanDeleteConnections false conns userId = false := by
      rw [userCanDeleteConnections, if_neg (by simp), decide_eq_false_iff_not]
      omega
    simp [deleteConnectionAction, hcan]
  · intro hp intent cidOpt conns₂ hs
    unfold deleteConnectionAction at hs
    by_cases h1 : (intent != "delete-connection") = true
    · rw [if_pos h1] at hs
      simp at hs
    · rw [if_neg h1] at hs
      by_cases h2 : (!userCanDeleteConnections hp conns₂ userId) = true
      · rw [if_pos h2] at hs
        simp at hs
      · have hcan : userCanDeleteConnections hp conns₂ userId = true := by
          simpa using h2
        cases hp with
        | true => exact Or.inl rfl
        | false =>
          right
          simpa [userCanDeleteConnections] using hcan

/-- Witness for C10: a password-less user with a single connection is refused
and the connection table is untouched. -/
theorem delete_connection_guard_witness :
    deleteConnectionAction "alice" false "delete-connection" (some "c1")
        [⟨"c1", "alice"⟩] = (.forbidden, [⟨"c1", "alice"⟩]) ∧
    ∀ (hp : Bool) (intent : String) (cidOpt : Option String)
      (conns₂ : List Connection),
      (deleteConnectionAction "alice" hp intent cidOpt conns₂).1 = .success →
      hp = true ∨ connectionCount conns₂ "alice" > 1 :=
  delete_connection_guard "alice" "c1" [⟨"c1", "alice"⟩] (by decide)

end EpicNotes
